import Mathlib

/-!
Verification development for the crawl-analysis repository.

We shallowly embed the NOAA archive crawler (`src/crawling/noaa_complete_crawler.py`,
mirrored in `src/green_power/crawling/noaa_crawler.py`), the storm matcher
(`src/green_power/processing/cyclone_matcher.py`) and the track kinematics
(`src/green_power/processing/extract_cyclone_tracks.py`).

Strings are modelled as `List Char` (`Str`).  External collaborators (the HTTP
session, `urljoin`, and BeautifulSoup's DOM parse) are passed in as parameters
or appear as pre-parsed structures; everything the repository's own code does
with their results is translated faithfully.
-/

set_option maxRecDepth 4000

namespace CrawlAnalysis

abbrev Str := List Char

/-- `a` is a literal prefix of `b` (character-exact). -/
def prefixOf : Str → Str → Bool
  | [], _ => true
  | _ :: _, [] => false
  | a :: as, b :: bs => a == b && prefixOf as bs

/-- Python's `pat in s` substring test. -/
def containsSub (pat : Str) : Str → Bool
  | [] => prefixOf pat []
  | c :: rest => prefixOf pat (c :: rest) || containsSub pat rest

/-- Python's `str.lower()` (per-character). -/
def lowerChars (s : Str) : Str := s.map Char.toLower

/-- Python's `str.upper()` (per-character). -/
def upperChars (s : Str) : Str := s.map Char.toUpper

/-- ASCII whitespace as recognized by Python's `str.strip`/`\s`. -/
def isPySpace (c : Char) : Bool :=
  c == ' ' || c == '\t' || c == '\n' || c == '\x0d' || c == '\x0b' || c == '\x0c'

/-- Python's `str.strip()` with no argument. -/
def stripChars (s : Str) : Str :=
  ((s.dropWhile isPySpace).reverse.dropWhile isPySpace).reverse

/-- Python's `str.endswith`. -/
def endsWith (suf s : Str) : Bool := prefixOf suf.reverse s.reverse

/-- Python's `str.startswith`. -/
def startsWith (pre s : Str) : Bool := prefixOf pre s

/-! ## Page Fetcher (`NOAACompleteCrawler.fetch_page`)

`fetch_page` issues a GET (modelled by `web : Str → Option Str`, `none` being
any transport failure caught by the `except` clause), then checks the body for
a `meta http-equiv="refresh"` directive; if the regex
`content="0;URL=([^"]+)"` (IGNORECASE) matches, it resolves the target against
the current URL (`urljoin`, a collaborator passed as `join`) unless the target
already starts with `http`, and *recursively* calls itself on the target.
The `follow_redirects=False` argument of the recursive call only disables
HTTP-level redirects inside the collaborator; the meta-refresh handling
itself recurses on every hop.  `fuel` models the Python call stack. -/

/-- The guard `'meta http-equiv="refresh"' in response.text.lower()`. -/
def hasMetaRefresh (body : Str) : Bool :=
  containsSub ("meta http-equiv=\"refresh\"".toList) (lowerChars body)

/-- Match the regex `content="0;URL=` (IGNORECASE) at the head of `s`;
the literal is 16 characters long. -/
def refreshLitAt (s : Str) : Bool :=
  prefixOf ("content=\"0;url=".toList) (lowerChars (s.take 15))

/-- `re.search(r'content="0;URL=([^"]+)"', text, re.IGNORECASE)`: at the
leftmost position where the literal matches, capture the maximal nonempty run
of non-quote characters, which must be followed by a closing quote. -/
def extractRefreshURL : Str → Option Str
  | [] => none
  | c :: rest =>
    if refreshLitAt (c :: rest) then
      let tail := (c :: rest).drop 15
      let run := tail.takeWhile (fun ch => ch != '"')
      if run ≠ [] && prefixOf ("\"".toList) (tail.drop run.length) then
        some run
      else extractRefreshURL rest
    else extractRefreshURL rest

/-- `fetch_page`: `web` is the HTTP session collaborator, `join` is
`urllib.parse.urljoin`. -/
def fetchPage (web : Str → Option Str) (join : Str → Str → Str) :
    Nat → Str → Option Str
  | 0, _ => none
  | fuel + 1, url =>
    match web url with
    | none => none
    | some body =>
      if hasMetaRefresh body then
        match extractRefreshURL body with
        | some target =>
          let target' := if startsWith ("http".toList) target then target
                         else join url target
          fetchPage web join fuel target'
        | none => some body
      else some body

/-! ### A concrete two-hop meta-refresh chain -/

/-- Body of a page that meta-refreshes to `t`. -/
def refreshBodyTo (t : Str) : Str :=
  ("<meta http-equiv=\"refresh\" content=\"0;URL=".toList) ++ t ++ ("\">".toList)

def urlA : Str := "http://a".toList
def urlB : Str := "http://b".toList
def urlC : Str := "http://c".toList

def bodyA : Str := refreshBodyTo urlB
def bodyB : Str := refreshBodyTo urlC
def bodyC : Str := "FINAL PAGE".toList

/-- A three-page web: `A` refreshes to `B`, `B` refreshes to `C`, `C` is plain. -/
def chainWeb (u : Str) : Option Str :=
  if u = urlA then some bodyA
  else if u = urlB then some bodyB
  else if u = urlC then some bodyC
  else none

def idJoin (_ t : Str) : Str := t

end CrawlAnalysis

namespace CrawlAnalysis

/-- C1 counterexample: on a two-hop meta-refresh chain the code returns the
*final* page's content, not the first redirect target's raw content as the
claim states.  `fetch_page` recurses again whenever the fetched body itself
contains a meta-refresh directive. -/
theorem fetchPage_two_hop_returns_final :
    fetchPage chainWeb idJoin 1000 urlA = some bodyC ∧ bodyC ≠ bodyB := by
  decide

/-- C1 (amended): `fetch_page` follows meta-refresh redirects recursively as
long as each fetched body contains a parsable directive: on a two-hop chain
`a → b → c` (absolute targets, `c` free of meta-refresh) it returns page `c`'s
content, for any spare fuel. -/
theorem fetchPage_follows_whole_chain
    (web : Str → Option Str) (join : Str → Str → Str)
    (a b c bA bB bC : Str) (fuel : Nat)
    (hwA : web a = some bA) (hwB : web b = some bB) (hwC : web c = some bC)
    (hrA : hasMetaRefresh bA = true) (heA : extractRefreshURL bA = some b)
    (habsB : startsWith ("http".toList) b = true)
    (hrB : hasMetaRefresh bB = true) (heB : extractRefreshURL bB = some c)
    (habsC : startsWith ("http".toList) c = true)
    (hrC : hasMetaRefresh bC = false) :
    fetchPage web join (fuel + 3) a = some bC := by
  have habsB' : startsWith ['h', 't', 't', 'p'] b = true := habsB
  have habsC' : startsWith ['h', 't', 't', 'p'] c = true := habsC
  simp [fetchPage, hwA, hrA, heA, habsB', hwB, hrB, heB, habsC', hwC, hrC]

/-- Witness for `fetchPage_follows_whole_chain` on the concrete chain web. -/
theorem fetchPage_follows_whole_chain_witness :
    fetchPage chainWeb idJoin 1000 urlA = some bodyC :=
  fetchPage_follows_whole_chain chainWeb idJoin urlA urlB urlC bodyA bodyB bodyC
    997 (by decide) (by decide) (by decide) (by decide) (by decide)
    (by decide) (by decide) (by decide) (by decide) (by decide)

/-! ## Advisory Downloader (`extract_text_from_html`, `download_advisory`)

A fetched document is modelled as its raw text plus the list of `get_text()`
results of its `<pre>` elements in document order (that list is the output of
the BeautifulSoup collaborator; everything done *with* it is in-source). -/

structure Doc where
  raw : Str
  pres : List Str
  deriving DecidableEq

/-- Python's `max(pre_tags, key=lambda x: len(x.get_text()))`: first maximal
element by text length. -/
def pyMaxAux (best : Str) : List Str → Str
  | [] => best
  | x :: rest => if best.length < x.length then pyMaxAux x rest else pyMaxAux best rest

/-- `extract_text_from_html`: largest `<pre>` text, stripped; `none` when the
document has no `<pre>` element. -/
def extractTextFromHtml (pres : List Str) : Option Str :=
  match pres with
  | [] => none
  | p0 :: rest => some (stripChars (pyMaxAux p0 rest))

/-- `'<html' in content.lower() or '<body' in content.lower() or
'<!doctype' in content.lower()` (negation of `is_plain_text`). -/
def isHtmlContent (raw : Str) : Bool :=
  containsSub ("<html".toList) (lowerChars raw) ||
  containsSub ("<body".toList) (lowerChars raw) ||
  containsSub ("<!doctype".toList) (lowerChars raw)

/-- `pathlib.Path.with_suffix('.html')` on a `/`-separated path string. -/
def withSuffixHtml (path : Str) : Str :=
  let revName := path.reverse.takeWhile (fun c => c != '/')
  let d := path.take (path.length - revName.length)
  let n := revName.reverse
  let afterDot := revName.takeWhile (fun c => c != '.')
  if afterDot.length < revName.length ∧ n.length - afterDot.length - 1 ≠ 0 then
    d ++ n.take (n.length - afterDot.length - 1) ++ (".html".toList)
  else d ++ n ++ (".html".toList)

/-- The content/destination decision of `download_advisory` once the body has
been fetched: plain text is saved verbatim; HTML has its largest `<pre>` text
saved unless that is missing or falsy (empty after strip), in which case the
whole document is saved under the `.html`-suffixed path. -/
def downloadResult (doc : Doc) (savePath : Str) : Str × Str :=
  if isHtmlContent doc.raw then
    match extractTextFromHtml doc.pres with
    | some t => if t.isEmpty then (doc.raw, withSuffixHtml savePath) else (t, savePath)
    | none => (doc.raw, withSuffixHtml savePath)
  else (doc.raw, savePath)

/-- An HTML body whose only `<pre>` holds a single space. -/
def preWsDoc : Doc :=
  { raw := "<html><pre> </pre></html>".toList, pres := [" ".toList] }

/-- C6 counterexample: an HTML body with a (whitespace-only) `<pre>` element is
*not* saved as that element's text — Python's falsiness check `if not
text_content` treats the stripped empty string like a missing `<pre>`, so the
whole document is saved and the extension is forced to `.html`. -/
theorem downloadResult_whitespace_pre :
    downloadResult preWsDoc ("d/a.txt".toList) = (preWsDoc.raw, "d/a.html".toList) ∧
    preWsDoc.pres ≠ [] ∧
    preWsDoc.raw ≠ (" ".toList) ∧ preWsDoc.raw ≠ stripChars (" ".toList) := by
  decide

/-- C6 (amended): for an HTML body, if there is at least one `<pre>` element
and the stripped text of the first length-maximal one is nonempty, that text is
saved at the computed path; if there is no `<pre>` element, or the selected
text strips to empty, the whole document is saved at the `.html`-suffixed
path. -/
theorem downloadResult_html_cases (doc : Doc) (p : Str)
    (hhtml : isHtmlContent doc.raw = true) :
    (∀ p0 rest, doc.pres = p0 :: rest →
       (stripChars (pyMaxAux p0 rest) ≠ [] →
          downloadResult doc p = (stripChars (pyMaxAux p0 rest), p)) ∧
       (stripChars (pyMaxAux p0 rest) = [] →
          downloadResult doc p = (doc.raw, withSuffixHtml p))) ∧
    (doc.pres = [] → downloadResult doc p = (doc.raw, withSuffixHtml p)) := by
  constructor
  · intro p0 rest hp
    constructor
    · intro hne
      simp [downloadResult, hhtml, extractTextFromHtml, hp, List.isEmpty_iff, hne]
    · intro he
      simp [downloadResult, hhtml, extractTextFromHtml, hp, List.isEmpty_iff, he]
  · intro hp
    simp [downloadResult, hhtml, extractTextFromHtml, hp]

/-- Witness for `downloadResult_html_cases`: the spec's fixture with two
`<pre>` elements of different lengths — the longer one's text is saved. -/
theorem downloadResult_html_cases_witness :
    downloadResult { raw := ("<html>x</html>".toList),
                     pres := [("ab".toList), ("abcd".toList)] } ("d/a.txt".toList)
      = (("abcd".toList), ("d/a.txt".toList)) :=
  ((downloadResult_html_cases
      { raw := ("<html>x</html>".toList), pres := [("ab".toList), ("abcd".toList)] }
      ("d/a.txt".toList) (by decide)).1
    ("ab".toList) [("abcd".toList)] rfl).1 (by decide)

/-! ## `crawl_cyclone` download loop (skip-if-exists) -/

/-- One replacement pass of Python's `str.replace` (pattern `p :: ps`),
left-to-right and non-overlapping.  The fuel argument (initially the string
length, which each step consumes at least one character of) keeps the
recursion structural so that it evaluates in the kernel. -/
def replaceGo (p : Char) (ps rep : Str) : Nat → Str → Str
  | 0, s => s
  | _ + 1, [] => []
  | fuel + 1, c :: rest =>
    if prefixOf (p :: ps) (c :: rest) then
      rep ++ replaceGo p ps rep fuel (rest.drop ps.length)
    else c :: replaceGo p ps rep fuel rest

/-- Python's `str.replace(pat, rep)`. -/
def replaceAll (pat rep s : Str) : Str :=
  match pat with
  | [] => s
  | p :: ps => replaceGo p ps rep s.length s

/-- `url.split('/')[-1]`. -/
def lastComponent (s : Str) : Str :=
  (s.reverse.takeWhile (fun c => c != '/')).reverse

/-- Python's `f"{n:03d}"`. -/
def pad3 (n : Nat) : Str :=
  let s := (toString n).toList
  List.replicate (3 - s.length) '0' ++ s

def natStr (n : Nat) : Str := (toString n).toList

def pjoin (a b : Str) : Str := a ++ ("/".toList) ++ b

/-- The filename `crawl_cyclone` computes for the `idx`-th URL (1-based) of a
product kind: basename with `.shtml`/`.html` rewritten to `.txt`, and the
legacy fallback name when the result does not end in `.txt`. -/
def filenameFor (fmtType cycName : Str) (idx : Nat) (url : Str) : Str :=
  let fn := replaceAll (".html".toList) (".txt".toList)
              (replaceAll (".shtml".toList) (".txt".toList) (lastComponent url))
  if fmtType == ("legacy".toList) && !(endsWith (".txt".toList) fn) then
    lowerChars cycName ++ ("_advisory_".toList) ++ pad3 idx ++ (".txt".toList)
  else fn

/-- `download_advisory`'s effect on the saved-file set: a failed fetch saves
nothing; a successful one saves at the path chosen by `downloadResult`. -/
def downloadAdvisoryFS (web : Str → Option Doc) (url savePath : Str)
    (fs : List Str) : List Str :=
  match web url with
  | none => fs
  | some doc => (downloadResult doc savePath).2 :: fs

/-- The per-kind download loop of `crawl_cyclone`: returns the URLs actually
requested (in order) and the resulting saved-file set.  A URL whose computed
destination already exists is skipped before any request is made. -/
def downloadLoop (web : Str → Option Doc) (fmtType cycName saveDir : Str) :
    List Str → Nat → List Str → List Str → List Str × List Str
  | [], _, fs, reqs => (reqs, fs)
  | url :: rest, idx, fs, reqs =>
    let savePath := pjoin saveDir (filenameFor fmtType cycName idx url)
    if savePath ∈ fs then
      downloadLoop web fmtType cycName saveDir rest (idx + 1) fs reqs
    else
      downloadLoop web fmtType cycName saveDir rest (idx + 1)
        (downloadAdvisoryFS web url savePath fs) (reqs ++ [url])

/-- `DATA_TYPES` in declaration order. -/
def DATA_TYPES : List (Str × Str) :=
  [(("fstadv".toList), ("forecast_advisory".toList)),
   (("public".toList), ("public_advisory".toList)),
   (("discus".toList), ("forecast_discussion".toList)),
   (("wndprb".toList), ("wind_speed_probabilities".toList))]

def kindSaveDir (outputDir : Str) (year : Nat) (basin cycName fullName : Str) : Str :=
  pjoin (pjoin (pjoin (pjoin outputDir (natStr year)) basin) cycName) fullName

/-- `crawl_cyclone`'s outer loop over the product kinds. -/
def crawlKinds (web : Str → Option Doc) (outputDir : Str) (year : Nat)
    (basin cycName fmtType : Str) (advisories : Str → List Str) :
    List (Str × Str) → List Str → List Str → List Str × List Str
  | [], fs, reqs => (reqs, fs)
  | kv :: rest, fs, reqs =>
    let r := downloadLoop web fmtType cycName
      (kindSaveDir outputDir year basin cycName kv.2) (advisories kv.1) 1 fs []
    crawlKinds web outputDir year basin cycName fmtType advisories rest r.2 (reqs ++ r.1)

/-- `crawl_cyclone` restricted to its download behaviour: URLs requested and
files saved, starting from the on-disk set `fs`. -/
def crawlCyclone (web : Str → Option Doc) (outputDir : Str) (year : Nat)
    (basin cycName fmtType : Str) (advisories : Str → List Str)
    (fs : List Str) : List Str × List Str :=
  crawlKinds web outputDir year basin cycName fmtType advisories DATA_TYPES fs []

/-- All destination paths `crawl_cyclone` will compute for one kind. -/
def plannedPathsKind (fmtType cycName saveDir : Str) : List Str → Nat → List Str
  | [], _ => []
  | url :: rest, idx =>
    pjoin saveDir (filenameFor fmtType cycName idx url) ::
      plannedPathsKind fmtType cycName saveDir rest (idx + 1)

/-- All destination paths over every product kind. -/
def plannedPaths (outputDir : Str) (year : Nat) (basin cycName fmtType : Str)
    (advisories : Str → List Str) : List Str :=
  DATA_TYPES.flatMap (fun kv =>
    plannedPathsKind fmtType cycName
      (kindSaveDir outputDir year basin cycName kv.2) (advisories kv.1) 1)

lemma downloadLoop_all_exist (web : Str → Option Doc) (fmtType cycName saveDir : Str)
    (urls : List Str) (idx : Nat) (fs reqs : List Str)
    (h : ∀ p ∈ plannedPathsKind fmtType cycName saveDir urls idx, p ∈ fs) :
    downloadLoop web fmtType cycName saveDir urls idx fs reqs = (reqs, fs) := by
  induction urls generalizing idx with
  | nil => rfl
  | cons url rest ih =>
    have hmem : pjoin saveDir (filenameFor fmtType cycName idx url) ∈ fs :=
      h _ (by simp [plannedPathsKind])
    rw [downloadLoop, if_pos hmem]
    exact ih (idx + 1) (fun p hp => h p (by simp [plannedPathsKind, hp]))

lemma crawlKinds_all_exist (web : Str → Option Doc) (outputDir : Str) (year : Nat)
    (basin cycName fmtType : Str) (advisories : Str → List Str)
    (kinds : List (Str × Str)) (fs reqs : List Str)
    (h : ∀ kv ∈ kinds, ∀ p ∈ plannedPathsKind fmtType cycName
          (kindSaveDir outputDir year basin cycName kv.2) (advisories kv.1) 1, p ∈ fs) :
    crawlKinds web outputDir year basin cycName fmtType advisories kinds fs reqs
      = (reqs, fs) := by
  induction kinds generalizing reqs with
  | nil => rfl
  | cons kv rest ih =>
    rw [crawlKinds]
    rw [downloadLoop_all_exist web fmtType cycName _ _ 1 fs []
          (h kv (by simp))]
    simpa only [List.append_nil] using ih reqs (fun kv hkv => h kv (by simp [hkv]))

/-- C2 (amended): the skip-if-exists check holds file by file — whenever every
destination path `crawl_cyclone` computes already exists on disk, the run
performs zero download requests and leaves the file set unchanged.  (This
yields a request-free second run only when the first run saved every file at
its computed path; the counterexample shows the `.html` fallback breaks
that.) -/
theorem crawlCyclone_skips_when_all_exist (web : Str → Option Doc)
    (outputDir : Str) (year : Nat) (basin cycName fmtType : Str)
    (advisories : Str → List Str) (fs : List Str)
    (h : ∀ p ∈ plannedPaths outputDir year basin cycName fmtType advisories, p ∈ fs) :
    crawlCyclone web outputDir year basin cycName fmtType advisories fs = ([], fs) := by
  apply crawlKinds_all_exist
  intro kv hkv p hp
  exact h p (by
    simp only [plannedPaths, List.mem_flatMap]
    exact ⟨kv, hkv, hp⟩)

/-- Concrete web for the C2 counterexample: one advisory URL whose body is
HTML without any `<pre>` block. -/
def cx2Url : Str := "http://x/u.shtml".toList

def cx2Web (u : Str) : Option Doc :=
  if u = cx2Url then some { raw := "<html>x</html>".toList, pres := [] } else none

def cx2Advisories (k : Str) : List Str :=
  if k = ("fstadv".toList) then [cx2Url] else []

def cx2Run (fs : List Str) : List Str × List Str :=
  crawlCyclone cx2Web ("o".toList) 2024 ("Atlantic".toList) ("ALEX".toList)
    ("new".toList) cx2Advisories fs

/-- C2 counterexample: with the source unchanged and every file from the first
run on disk, the second run still issues a download request — the first run
saved the file under the `.html` fallback path, so the precomputed `.txt`
destination never exists. -/
theorem crawlCyclone_second_run_downloads_again :
    (cx2Run []).1 = [cx2Url] ∧ (cx2Run (cx2Run []).2).1 = [cx2Url] := by
  decide

/-- Witness for `crawlCyclone_skips_when_all_exist`: with the single computed
destination path on disk, the run requests nothing. -/
theorem crawlCyclone_skips_when_all_exist_witness :
    crawlCyclone cx2Web ("o".toList) 2024 ("Atlantic".toList) ("ALEX".toList)
      ("new".toList) cx2Advisories
      [("o/2024/Atlantic/ALEX/forecast_advisory/u.txt".toList)]
      = ([], [("o/2024/Atlantic/ALEX/forecast_advisory/u.txt".toList)]) :=
  crawlCyclone_skips_when_all_exist cx2Web ("o".toList) 2024 ("Atlantic".toList)
    ("ALEX".toList) ("new".toList) cx2Advisories
    [("o/2024/Atlantic/ALEX/forecast_advisory/u.txt".toList)] (by decide)

/-! ## Storm Matcher (`CycloneMatcher`)

`scan_noaa_directory` walks the on-disk tree (modelled as nested directory
structures; `iterdir` order is the given list order — `sorted(...)` on year
directories only permutes entries and is immaterial to the stated
invariants).  `match_storms` joins the grouped IBTrACS table against the
scanned storms. -/

/-- `re.sub(r'^<pat>\s+', '', s, flags=re.IGNORECASE)` for a literal `pat`:
strip the prefix (case-insensitively) together with the following whitespace
run, or report failure. -/
def stripNamePre (pat s : Str) : Option Str :=
  if prefixOf (lowerChars pat) (lowerChars s) then
    match s.drop pat.length with
    | c :: rest => if isPySpace c then some ((c :: rest).dropWhile isPySpace) else none
    | [] => none
  else none

def applyStrip (pat s : Str) : Str := (stripNamePre pat s).getD s

/-- Leftmost alternative of a regex alternation `^(p1|p2|...)\s+`. -/
def applyStripAlt : List Str → Str → Str
  | [], s => s
  | p :: rest, s =>
    match stripNamePre p s with
    | some r => r
    | none => applyStripAlt rest s

/-- `CycloneMatcher._clean_storm_name`. -/
def cleanStormName (name : Str) : Str :=
  let n1 := applyStrip ("Potential Tropical Cyclone".toList) name
  let n2 := applyStripAlt
    [("Tropical Depression".toList), ("Tropical Storm".toList),
     ("Tropical Cyclone".toList)] n1
  let n3 := applyStrip ("Hurricane".toList) n2
  let w := (n3.dropWhile isPySpace).takeWhile (fun c => !(isPySpace c))
  if w ≠ [] then upperChars w else upperChars n3

/-- One row of the grouped IBTrACS table (`groupby(['sid','name_clean','year'])`
with aggregated first season and min/max `iso_time`); `name` is already
`name_clean` (upper-cased, stripped at load time). -/
structure IbGroup where
  sid : Str
  name : Str
  year : Int
  season : Str
  startTime : Str
  endTime : Str
  deriving DecidableEq

/-- One record of `scan_noaa_directory`'s output. -/
structure NoaaStorm where
  year : Int
  basin : Str
  stormName : Str
  stormPath : Str
  hasAdvisory : Bool
  hasDiscussion : Bool
  deriving DecidableEq

/-- One row of `match_storms`' output. -/
structure MatchedRow where
  ibtracsSid : Str
  ibtracsName : Str
  year : Int
  season : Str
  startTime : Str
  endTime : Str
  noaaBasin : Str
  noaaName : Str
  noaaPath : Str
  hasAdvisory : Bool
  hasDiscussion : Bool
  deriving DecidableEq

/-- `ibtracs_storms['name'].str.contains(name_clean, case=False, na=False)`.
The cleaned storm names involved are alphanumeric, for which pandas' regex
containment coincides with case-insensitive substring containment. -/
def containsCI (pat hay : Str) : Bool :=
  containsSub (lowerChars pat) (lowerChars hay)

/-- The row filter of `match_storms`: same year, and the group's cleaned name
contains the discovered storm's cleaned name. -/
def matchPred (year : Int) (nameClean : Str) (g : IbGroup) : Bool :=
  g.year == year && containsCI nameClean g.name

/-- `matches.iloc[0]` of the filtered groups, `none` when the filter is empty. -/
def matchOne (groups : List IbGroup) (s : NoaaStorm) : Option IbGroup :=
  (groups.filter (matchPred s.year (cleanStormName s.stormName))).head?

def mkRow (s : NoaaStorm) (g : IbGroup) : MatchedRow :=
  { ibtracsSid := g.sid, ibtracsName := g.name, year := s.year,
    season := g.season, startTime := g.startTime, endTime := g.endTime,
    noaaBasin := s.basin, noaaName := s.stormName, noaaPath := s.stormPath,
    hasAdvisory := s.hasAdvisory, hasDiscussion := s.hasDiscussion }

/-- `CycloneMatcher.match_storms`: one output row per discovered storm that
finds at least one group; unmatched storms are dropped. -/
def matchStorms (groups : List IbGroup) (noaa : List NoaaStorm) : List MatchedRow :=
  noaa.filterMap (fun s => (matchOne groups s).map (mkRow s))

/-! ### On-disk scan (`scan_noaa_directory`) -/

structure StormDirFS where
  name : Str
  isDir : Bool
  advisoryFiles : Option (List Str)
  discussionFiles : Option (List Str)
  deriving DecidableEq

structure BasinDirFS where
  name : Str
  isDir : Bool
  storms : List StormDirFS
  deriving DecidableEq

structure YearDirFS where
  name : Str
  isDir : Bool
  basins : List BasinDirFS
  deriving DecidableEq

/-- `forecast_adv_dir.exists() and any(forecast_adv_dir.iterdir())`. -/
def hasAdvB (sd : StormDirFS) : Bool :=
  match sd.advisoryFiles with
  | some l => !l.isEmpty
  | none => false

def hasDiscB (sd : StormDirFS) : Bool :=
  match sd.discussionFiles with
  | some l => !l.isEmpty
  | none => false

/-- Python's `str.isdigit()` (nonempty, all digits). -/
def isDigitStr (s : Str) : Bool := !s.isEmpty && s.all Char.isDigit

def strToNat (s : Str) : Nat :=
  s.foldl (fun a c => a * 10 + (c.toNat - '0'.toNat)) 0

/-- The storm-level body of `scan_noaa_directory`: a record is appended only
when the directory holds at least one advisory or discussion file. -/
def scanStorm (year : Int) (basinName basePath : Str) (sd : StormDirFS) :
    Option NoaaStorm :=
  if sd.isDir then
    if hasAdvB sd || hasDiscB sd then
      some { year := year, basin := basinName,
             stormName := stripChars (upperChars sd.name),
             stormPath := pjoin basePath sd.name,
             hasAdvisory := hasAdvB sd, hasDiscussion := hasDiscB sd }
    else none
  else none

/-- `scan_noaa_directory` over the modelled tree. -/
def scanNoaa (base : Str) (years : List YearDirFS) : List NoaaStorm :=
  years.flatMap (fun yd =>
    if yd.isDir && isDigitStr yd.name then
      yd.basins.flatMap (fun bd =>
        if bd.isDir then
          bd.storms.filterMap
            (scanStorm (Int.ofNat (strToNat yd.name)) bd.name
              (pjoin (pjoin base yd.name) bd.name))
        else [])
    else [])

lemma filter_head?_eq_find? {α : Type} (p : α → Bool) (l : List α) :
    (l.filter p).head? = l.find? p := by
  induction l with
  | nil => rfl
  | cons a l ih =>
    by_cases h : p a
    · simp [List.filter_cons, List.find?_cons_of_pos, h]
    · simp [List.filter_cons, List.find?_cons_of_neg, h, ih]

lemma find?_first {α : Type} (p : α → Bool) (l : List α) (g : α)
    (h : l.find? p = some g) :
    p g = true ∧ ∃ i, l.get? i = some g ∧
      ∀ j, j < i → ∀ x, l.get? j = some x → p x = false := by
  induction l with
  | nil => simp at h
  | cons a l ih =>
    by_cases hpa : p a
    · rw [List.find?_cons_of_pos _ hpa] at h
      obtain rfl : a = g := by simpa using h
      exact ⟨hpa, 0, rfl, fun j hj => by omega⟩
    · rw [List.find?_cons_of_neg _ hpa] at h
      obtain ⟨hp, i, hi, hj⟩ := ih h
      refine ⟨hp, i + 1, by simpa using hi, fun j hlt x hx => ?_⟩
      match j with
      | 0 =>
        obtain rfl : a = x := by simpa using hx
        simpa using hpa
      | j + 1 =>
        exact hj j (by omega) x (by simpa using hx)

/-- C3: a discovered storm is paired with the *first* track-table group (in
table order) whose year equals the storm's year and whose cleaned name
contains the storm's cleaned name case-insensitively; in particular the
matched group never comes from a different year, and the storm's output row
is built from exactly that group. -/
theorem matchStorms_first_same_year (groups : List IbGroup) (s : NoaaStorm)
    (g : IbGroup) (h : matchOne groups s = some g) :
    matchPred s.year (cleanStormName s.stormName) g = true ∧
    g.year = s.year ∧
    (∃ i, groups.get? i = some g ∧
      ∀ j, j < i → ∀ g', groups.get? j = some g' →
        matchPred s.year (cleanStormName s.stormName) g' = false) ∧
    matchStorms groups [s] = [mkRow s g] := by
  rw [matchOne, filter_head?_eq_find?] at h
  obtain ⟨hp, hfirst⟩ := find?_first _ _ _ h
  refine ⟨hp, ?_, hfirst, ?_⟩
  · have := hp
    rw [matchPred, Bool.and_eq_true] at this
    exact eq_of_beq this.1
  · simp [matchStorms, matchOne, filter_head?_eq_find?, h]

/-- Concrete data for the matcher witnesses: two same-named groups in
different years, and one discovered storm. -/
def groupBeryl2023 : IbGroup :=
  { sid := "2023x".toList, name := "BERYL".toList, year := 2023,
    season := "2023".toList, startTime := "s23".toList, endTime := "e23".toList }

def groupBeryl2024 : IbGroup :=
  { sid := "2024178N09308".toList, name := "BERYL".toList, year := 2024,
    season := "2024".toList, startTime := "s24".toList, endTime := "e24".toList }

def berylTree : List YearDirFS :=
  [{ name := "2024".toList, isDir := true,
     basins := [{ name := "Atlantic".toList, isDir := true,
                  storms := [{ name := "BERYL".toList, isDir := true,
                               advisoryFiles := some [("f1.txt".toList)],
                               discussionFiles := none }] }] }]

def berylStorm : NoaaStorm :=
  { year := 2024, basin := "Atlantic".toList, stormName := "BERYL".toList,
    stormPath := "noaa/2024/Atlantic/BERYL".toList,
    hasAdvisory := true, hasDiscussion := false }

/-- Witness for `matchStorms_first_same_year`: `BERYL` (2024) matches the 2024
group even though a same-named 2023 group precedes it in the table. -/
theorem matchStorms_first_same_year_witness :
    matchPred berylStorm.year (cleanStormName berylStorm.stormName)
        groupBeryl2024 = true ∧
    groupBeryl2024.year = berylStorm.year ∧
    (∃ i, [groupBeryl2023, groupBeryl2024].get? i = some groupBeryl2024 ∧
      ∀ j, j < i → ∀ g',
        [groupBeryl2023, groupBeryl2024].get? j = some g' →
        matchPred berylStorm.year (cleanStormName berylStorm.stormName) g' = false) ∧
    matchStorms [groupBeryl2023, groupBeryl2024] [berylStorm]
      = [mkRow berylStorm groupBeryl2024] :=
  matchStorms_first_same_year [groupBeryl2023, groupBeryl2024] berylStorm
    groupBeryl2024 (by decide)

lemma scanStorm_flags (year : Int) (basinName basePath : Str) (sd : StormDirFS)
    (s : NoaaStorm) (h : scanStorm year basinName basePath sd = some s) :
    s.hasAdvisory = true ∨ s.hasDiscussion = true := by
  rw [scanStorm] at h
  split_ifs at h with h1 h2
  · obtain rfl := Option.some_injective _ h.symm
    rcases Bool.or_eq_true_iff.mp h2 with ha | hd
    · exact Or.inl ha
    · exact Or.inr hd

lemma scanNoaa_flags (base : Str) (years : List YearDirFS) (s : NoaaStorm)
    (hs : s ∈ scanNoaa base years) :
    s.hasAdvisory = true ∨ s.hasDiscussion = true := by
  rw [scanNoaa] at hs
  simp only [List.mem_flatMap] at hs
  obtain ⟨yd, _, hs⟩ := hs
  by_cases hy : (yd.isDir && isDigitStr yd.name) = true
  · rw [if_pos hy] at hs
    simp only [List.mem_flatMap] at hs
    obtain ⟨bd, _, hs⟩ := hs
    by_cases hb : bd.isDir = true
    · rw [if_pos hb] at hs
      simp only [List.mem_filterMap] at hs
      obtain ⟨sd, _, hsd⟩ := hs
      exact scanStorm_flags _ _ _ _ _ hsd
    · rw [if_neg hb] at hs
      simp at hs
  · rw [if_neg hy] at hs
    simp at hs

/-- C8: every `MatchedStorm` row produced by `match_storms` from the on-disk
scan carries at least one of the two product flags — storms whose directory
holds neither an advisory nor a discussion file never enter the scan output,
and `match_storms` copies the flags unchanged. -/
theorem matchStorms_row_has_files (base : Str) (years : List YearDirFS)
    (groups : List IbGroup) (r : MatchedRow)
    (hr : r ∈ matchStorms groups (scanNoaa base years)) :
    r.hasAdvisory = true ∨ r.hasDiscussion = true := by
  rw [matchStorms] at hr
  simp only [List.mem_filterMap, Option.map_eq_some'] at hr
  obtain ⟨s, hs, g, _, rfl⟩ := hr
  simpa [mkRow] using scanNoaa_flags base years s hs

/-- Witness for `matchStorms_row_has_files` on the concrete BERYL tree. -/
theorem matchStorms_row_has_files_witness :
    (mkRow berylStorm groupBeryl2024).hasAdvisory = true ∨
    (mkRow berylStorm groupBeryl2024).hasDiscussion = true :=
  matchStorms_row_has_files ("noaa".toList) berylTree
    [groupBeryl2023, groupBeryl2024] (mkRow berylStorm groupBeryl2024)
    (by decide)

/-! ## Track Kinematics (`CycloneTrackExtractor._calculate_storm_movement`)

One storm's fixes, already sorted by datetime (the source sorts each `sid`
group before the loop).  Coordinates and timestamps are rationals with `none`
for pandas missing values (`NaN`/`NaT`); times are in seconds, matching
`total_seconds()`.  The Haversine and bearing kernels are passed as
parameters (`hav`, `bear`) — the null-propagation structure proved here is
independent of their values; the trigonometric bearing itself is modelled
over the reals further below. -/

structure Fix where
  lat : Option ℚ
  lon : Option ℚ
  time : Option ℚ
  deriving DecidableEq, Inhabited

/-- The guard conditions under which the loop body appends `NaN` for a step:
a missing coordinate or timestamp on either endpoint, or a non-positive
elapsed time. -/
def badStep (p c : Fix) : Bool :=
  match p.lat, p.lon, c.lat, c.lon with
  | some _, some _, some _, some _ =>
    match p.time, c.time with
    | some t1, some t2 => decide ((t2 - t1) / 3600 ≤ 0)
    | _, _ => true
  | _, _, _, _ => true

/-- The loop body for one non-initial fix: speed (km/h) and bearing of the
step from `p` to `c`, or `(none, none)` under the guard conditions. -/
def stepSpeedDir (hav bear : ℚ → ℚ → ℚ → ℚ → ℚ) (p c : Fix) :
    Option ℚ × Option ℚ :=
  match p.lat, p.lon, c.lat, c.lon with
  | some la1, some lo1, some la2, some lo2 =>
    match p.time, c.time with
    | some t1, some t2 =>
      let td := (t2 - t1) / 3600
      if 0 < td then
        (some (hav la1 lo1 la2 lo2 / td), some (bear la1 lo1 la2 lo2))
      else (none, none)
    | _, _ => (none, none)
  | _, _, _, _ => (none, none)

def movementGo (hav bear : ℚ → ℚ → ℚ → ℚ → ℚ) : Fix → List Fix →
    List (Option ℚ × Option ℚ)
  | _, [] => []
  | p, c :: rest => stepSpeedDir hav bear p c :: movementGo hav bear c rest

/-- `_calculate_storm_movement` for one storm: groups with fewer than two
fixes keep the initial all-`NaN` columns; otherwise the first fix gets
`(none, none)` and every later fix the value of its step. -/
def stormMovement (hav bear : ℚ → ℚ → ℚ → ℚ → ℚ) (fixes : List Fix) :
    List (Option ℚ × Option ℚ) :=
  if fixes.length < 2 then fixes.map (fun _ => (none, none))
  else
    match fixes with
    | [] => []
    | f :: rest => (none, none) :: movementGo hav bear f rest

lemma movementGo_length (hav bear : ℚ → ℚ → ℚ → ℚ → ℚ) (p : Fix)
    (l : List Fix) : (movementGo hav bear p l).length = l.length := by
  induction l generalizing p with
  | nil => rfl
  | cons c rest ih => simp [movementGo, ih]

lemma movementGo_get? (hav bear : ℚ → ℚ → ℚ → ℚ → ℚ) :
    ∀ (l : List Fix) (f : Fix) (k : Nat) (p c : Fix),
      (f :: l).get? k = some p → l.get? k = some c →
      (movementGo hav bear f l).get? k = some (stepSpeedDir hav bear p c) := by
  intro l
  induction l with
  | nil => intro f k p c _ hc; simp at hc
  | cons c0 rest ih =>
    intro f k p c hp hc
    match k with
    | 0 =>
      obtain rfl : f = p := by simpa using hp
      obtain rfl : c0 = c := by simpa using hc
      rfl
    | k + 1 =>
      exact ih c0 k p c (by simpa using hp) (by simpa using hc)

lemma stepSpeedDir_none_iff (hav bear : ℚ → ℚ → ℚ → ℚ → ℚ) (p c : Fix) :
    stepSpeedDir hav bear p c = (none, none) ↔ badStep p c = true := by
  rcases p with ⟨_ | la1, _ | lo1, _ | t1⟩ <;>
    rcases c with ⟨_ | la2, _ | lo2, _ | t2⟩ <;>
    simp [stepSpeedDir, badStep]
  rw [div_nonpos_iff]
  constructor
  · intro h
    exact Or.inr ⟨by linarith, by norm_num⟩
  · rintro (⟨h1, h2⟩ | ⟨h1, h2⟩) <;> linarith

/-- C4: in one storm's movement columns, the first fix gets null speed and
direction; the value at every later position `i` is exactly the step function
of fixes `i-1` and `i` (so a null step affects that step only and never the
remaining fixes); and a step is null precisely under the guard — missing
latitude, longitude or timestamp on either endpoint, or non-positive elapsed
time. -/
theorem stormMovement_locality (hav bear : ℚ → ℚ → ℚ → ℚ → ℚ)
    (fixes : List Fix) (i : Nat) (p c : Fix) (h0 : 0 < i)
    (hp : fixes.get? (i - 1) = some p) (hc : fixes.get? i = some c) :
    (stormMovement hav bear fixes).length = fixes.length ∧
    (stormMovement hav bear fixes).get? 0 = some (none, none) ∧
    (stormMovement hav bear fixes).get? i = some (stepSpeedDir hav bear p c) ∧
    (stepSpeedDir hav bear p c = (none, none) ↔ badStep p c = true) := by
  have hlen : i < fixes.length := List.get?_eq_some.mp hc |>.1
  have hlen2 : 2 ≤ fixes.length := by omega
  obtain ⟨f, rest, rfl⟩ : ∃ f rest, fixes = f :: rest := by
    cases fixes with
    | nil => simp at hlen
    | cons f rest => exact ⟨f, rest, rfl⟩
  rw [stormMovement, if_neg (by omega)]
  obtain ⟨k, rfl⟩ : ∃ k, i = k + 1 := ⟨i - 1, by omega⟩
  refine ⟨by simp [movementGo_length], by simp, ?_, stepSpeedDir_none_iff hav bear p c⟩
  have hp' : (f :: rest).get? k = some p := by simpa using hp
  have hc' : rest.get? k = some c := by simpa using hc
  simpa using movementGo_get? hav bear rest f k p c hp' hc'

def kernelZero : ℚ → ℚ → ℚ → ℚ → ℚ := fun _ _ _ _ => 0

def fixA : Fix := { lat := some 10, lon := some 20, time := some 0 }
def fixB : Fix := { lat := some 11, lon := some 21, time := some 3600 }
def fixC : Fix := { lat := none, lon := some 22, time := some 7200 }

/-- Witness for `stormMovement_locality` at position 1 of a three-fix storm
whose third fix has a missing latitude. -/
theorem stormMovement_locality_witness :
    (stormMovement kernelZero kernelZero [fixA, fixB, fixC]).length = 3 ∧
    (stormMovement kernelZero kernelZero [fixA, fixB, fixC]).get? 0
      = some (none, none) ∧
    (stormMovement kernelZero kernelZero [fixA, fixB, fixC]).get? 1
      = some (stepSpeedDir kernelZero kernelZero fixA fixB) ∧
    (stepSpeedDir kernelZero kernelZero fixA fixB = (none, none) ↔
      badStep fixA fixB = true) :=
  stormMovement_locality kernelZero kernelZero [fixA, fixB, fixC] 1 fixA fixB
    (by decide) (by decide) (by decide)

/-! ## Bearing (`CycloneTrackExtractor._calculate_bearing`)

Modelled over the reals (the claim quantifies over real coordinates).
`np.arctan2(y, x)` is the external numerical kernel; it is embedded by its
documented quadrant definition. `pyModR` is Python's float `%` for a real
divisor, i.e. floor-based modulo. -/

/-- `np.radians`. -/
noncomputable def radiansR (x : ℝ) : ℝ := x * Real.pi / 180

/-- `np.degrees`. -/
noncomputable def degreesR (x : ℝ) : ℝ := x * 180 / Real.pi

/-- `np.arctan2(yv, xv)` by its quadrant definition. -/
noncomputable def arctan2 (yv xv : ℝ) : ℝ :=
  if 0 < xv then Real.arctan (yv / xv)
  else if xv < 0 then
    (if 0 ≤ yv then Real.arctan (yv / xv) + Real.pi
     else Real.arctan (yv / xv) - Real.pi)
  else
    (if 0 < yv then Real.pi / 2 else if yv < 0 then -(Real.pi / 2) else 0)

/-- Python's `%` on reals (sign of the divisor): `a - n * floor(a / n)`. -/
noncomputable def pyModR (a n : ℝ) : ℝ := a - n * (⌊a / n⌋ : ℤ)

/-- `_calculate_bearing`: forward azimuth of the step `(lat1, lon1) →
(lat2, lon2)`, mapped into degrees by `(degrees(arctan2(x, y)) + 360) % 360`. -/
noncomputable def calculateBearing (lat1 lon1 lat2 lon2 : ℝ) : ℝ :=
  pyModR (degreesR (arctan2
      (Real.sin (radiansR lon2 - radiansR lon1) * Real.cos (radiansR lat2))
      (Real.cos (radiansR lat1) * Real.sin (radiansR lat2) -
        Real.sin (radiansR lat1) * Real.cos (radiansR lat2) *
          Real.cos (radiansR lon2 - radiansR lon1))) + 360) 360

lemma pyModR_mem (a n : ℝ) (hn : 0 < n) : 0 ≤ pyModR a n ∧ pyModR a n < n := by
  have hne : n ≠ 0 := ne_of_gt hn
  have h1 : pyModR a n = n * Int.fract (a / n) := by
    rw [pyModR, Int.fract, mul_sub, mul_comm n (a / n), div_mul_cancel₀ a hne]
  constructor
  · rw [h1]
    exact mul_nonneg hn.le (Int.fract_nonneg _)
  · rw [h1]
    calc n * Int.fract (a / n) < n * 1 :=
          mul_lt_mul_of_pos_left (Int.fract_lt_one _) hn
      _ = n := mul_one n

/-- C7: for all real coordinates the computed bearing lies in `[0, 360)`;
and the convention anchor — a due-north step (from the origin to latitude 45,
same longitude) has bearing `0`. -/
theorem calculateBearing_range (lat1 lon1 lat2 lon2 : ℝ) :
    (0 ≤ calculateBearing lat1 lon1 lat2 lon2 ∧
      calculateBearing lat1 lon1 lat2 lon2 < 360) ∧
    calculateBearing 0 0 45 0 = 0 := by
  constructor
  · exact pyModR_mem _ 360 (by norm_num)
  · have hpi := Real.pi_pos
    have hs : (0 : ℝ) < Real.sin (Real.pi / 4) :=
      Real.sin_pos_of_pos_of_lt_pi (by linarith) (by linarith)
    have h0 : radiansR 0 = 0 := by simp [radiansR]
    have h45 : radiansR 45 = Real.pi / 4 := by rw [radiansR]; ring
    rw [calculateBearing, h0, h45]
    simp only [sub_zero, sub_self, Real.sin_zero, Real.cos_zero, zero_mul,
      one_mul, mul_one, mul_zero, sub_zero]
    rw [arctan2, if_pos hs, zero_div, Real.arctan_zero]
    rw [degreesR, zero_mul, zero_div, zero_add]
    rw [pyModR]
    norm_num

/-! ## Year-Index Parser (`get_year_cyclones`)

The BeautifulSoup boundary: a page is modelled by the string nodes together
with their next sibling (for the `atcf_index` branch), the document-order
list of `td` cells carrying a `headers` attribute, and the tables (for the
two legacy branches).  Attribute and `get_text(strip=True)` values are the
collaborator's outputs; everything computed from them is in-source. -/

structure Cyclone where
  id : Str
  name : Str
  fullName : Str
  url : Str
  fmt : Str
  basin : Str
  basinCode : Str
  deriving DecidableEq

/-- `BASIN_NAMES` lookup (`al`/`ep`/`cp`). -/
def basinNameOf (code : Str) : Option Str :=
  if code = ("al".toList) then some ("Atlantic".toList)
  else if code = ("ep".toList) then some ("E_Pacific".toList)
  else if code = ("cp".toList) then some ("C_Pacific".toList)
  else none

inductive NextSib
  | missing
  | anchor (href text : Str)
  | other
  deriving DecidableEq

/-- A string node of the page together with its `next_sibling`; `text` for an
anchor is its `get_text(strip=True)`. -/
structure StrNode where
  text : Str
  next : NextSib
  deriving DecidableEq

def isLowerAZ (c : Char) : Bool := 'a' ≤ c && c ≤ 'z'

def isDigitCh (c : Char) : Bool := '0' ≤ c && c ≤ '9'

def isUpperAZ (c : Char) : Bool := 'A' ≤ c && c ≤ 'Z'

/-- Head-anchored piece of `re.search(r'atcf_index=([a-z]{2}\d{2})', s)`. -/
def atcfAt (s : Str) : Option Str :=
  if prefixOf ("atcf_index=".toList) s then
    match s.drop 11 with
    | c1 :: c2 :: c3 :: c4 :: _ =>
      if isLowerAZ c1 && isLowerAZ c2 && isDigitCh c3 && isDigitCh c4 then
        some [c1, c2, c3, c4]
      else none
    | _ => none
  else none

/-- `re.search(r'atcf_index=([a-z]{2}\d{2})', s)`: leftmost match. -/
def extractAtcf : Str → Option Str
  | [] => none
  | c :: rest =>
    match atcfAt (c :: rest) with
    | some r => some r
    | none => extractAtcf rest

/-- Case-sensitive `re.sub(r'^<pat>\s+', '', s)` for a literal alternative. -/
def stripNamePreCS (pat s : Str) : Option Str :=
  if prefixOf pat s then
    match s.drop pat.length with
    | c :: rest => if isPySpace c then some ((c :: rest).dropWhile isPySpace) else none
    | [] => none
  else none

/-- `re.sub(r'^(Hurricane|Tropical Storm|Tropical Depression)\s+', '', name)`. -/
def applyStripAltCS : List Str → Str → Str
  | [], s => s
  | p :: rest, s =>
    match stripNamePreCS p s with
    | some r => r
    | none => applyStripAltCS rest s

def catAlternatives : List Str :=
  [("Hurricane".toList), ("Tropical Storm".toList), ("Tropical Depression".toList)]

/-- The body of the new-format loop for one string node: the find-all filter
(`'atcf_index=' in text`), the id regex, and the next-sibling anchor check;
any failure produces no record. -/
def mkNewRecord (yearUrl : Str) (join : Str → Str → Str) (n : StrNode) :
    Option Cyclone :=
  if containsSub ("atcf_index=".toList) n.text then
    match extractAtcf n.text with
    | some cid =>
      match n.next with
      | NextSib.anchor href text =>
        some { id := cid,
               name := applyStripAltCS catAlternatives text,
               fullName := text,
               url := join yearUrl href,
               fmt := ("new".toList),
               basin := (basinNameOf (cid.take 2)).getD ("Unknown".toList),
               basinCode := cid.take 2 }
      | _ => none
    | none => none
  else none

/-- The new-format branch (method 1). -/
def newFormatRecords (yearUrl : Str) (join : Str → Str → Str)
    (nodes : List StrNode) : List Cyclone :=
  nodes.filterMap (mkNewRecord yearUrl join)

/-! ### Legacy branches -/

structure Link where
  href : Str
  text : Str
  deriving DecidableEq

/-- A `td` cell: its (normalized) `headers` attribute — the raw string, or the
first element when BeautifulSoup yields a list, or `''` for an empty list —
and its anchors. -/
structure TdCell where
  headersAttr : Str
  links : List Link
  deriving DecidableEq

/-- Match `pre ++ [A-Z]+ ++ suf` at the head of `s`, returning the group.
Both suffixes in use start with a lowercase letter or a dot, so the greedy
uppercase run admits no backtracking and maximal-run-then-literal is exact. -/
def upperGroupAt (pre suf s : Str) : Option Str :=
  if prefixOf pre s then
    let rest := s.drop pre.length
    let run := rest.takeWhile isUpperAZ
    if !run.isEmpty && prefixOf suf (rest.drop run.length) then some run
    else none
  else none

/-- `re.search` of `pre([A-Z]+)suf`: leftmost match's group. -/
def upperGroupSearch (pre suf : Str) : Str → Option Str
  | [] => none
  | c :: rest =>
    match upperGroupAt pre suf (c :: rest) with
    | some r => some r
    | none => upperGroupSearch pre suf rest

/-- The four legacy filename patterns, in trial order. -/
def legacyPatterns (year : Nat) : List (Str × Str) :=
  [(natStr year, ("adv.html".toList)),
   ([], (".html".toList)),
   (natStr year, (".shtml".toList)),
   ([], (".shtml".toList))]

/-- `for pattern in patterns: for link in td.find_all('a', href=re.compile(
pattern))`: the candidate (group, link) pairs of one cell, in that nested
order. -/
def linkCandidates (year : Nat) (links : List Link) : List (Str × Link) :=
  (legacyPatterns year).flatMap (fun ps =>
    links.filterMap (fun l =>
      (upperGroupSearch ps.1 ps.2 l.href).map (fun nm => (nm, l))))

def legacyId (year : Nat) (nm : Str) : Str :=
  ("legacy_".toList) ++ natStr year ++ ("_".toList) ++ lowerChars nm

def mkLegacyCyclone (year : Nat) (yearUrl : Str) (join : Str → Str → Str)
    (basinName basinCode nm : Str) (l : Link) : Cyclone :=
  { id := legacyId year nm, name := nm, fullName := l.text,
    url := join yearUrl l.href, fmt := ("legacy".toList),
    basin := basinName, basinCode := basinCode }

/-- `if not any(c['id'] == cyclone_id for c in cyclones): cyclones.append(...)`
— first-wins deduplication by id. -/
def dedupAppend (acc : List Cyclone) (c : Cyclone) : List Cyclone :=
  if acc.any (fun x => x.id == c.id) then acc else acc ++ [c]

/-- One `td` of the headers-attribute branch: update the carried basin when
the attribute is a known basin code, then collect the cell's candidates. -/
def tdBranchStep (year : Nat) (yearUrl : Str) (join : Str → Str → Str)
    (st : (Str × Str) × List Cyclone) (td : TdCell) : (Str × Str) × List Cyclone :=
  let cur := match basinNameOf td.headersAttr with
             | some bn => (bn, td.headersAttr)
             | none => st.1
  (cur, (linkCandidates year td.links).foldl
    (fun acc p => dedupAppend acc (mkLegacyCyclone year yearUrl join cur.1 cur.2 p.1 p.2))
    st.2)

/-- The headers-attribute legacy branch, starting from `Atlantic`/`al`. -/
def tdBranch (year : Nat) (yearUrl : Str) (join : Str → Str → Str)
    (cells : List TdCell) (acc : List Cyclone) : List Cyclone :=
  (cells.foldl (tdBranchStep year yearUrl join)
    (((("Atlantic".toList), ("al".toList))), acc)).2

/-- A `th` cell: its optional `id` attribute and its `get_text(strip=True)`. -/
structure ThCell where
  idAttr : Option Str
  text : Str
  deriving DecidableEq

structure RowModel where
  ths : List ThCell
  tds : List TdCell
  deriving DecidableEq

structure TableModel where
  rows : List RowModel
  deriving DecidableEq

/-- `ths = row.find_all('th', id=True); if not ths: ths = row.find_all('th')`. -/
def rowHeaderThs (r : RowModel) : List ThCell :=
  let withId := r.ths.filter (fun th => th.idAttr.isSome)
  if !withId.isEmpty then withId else r.ths

/-- Split a table's rows into the (last) header row and the data rows. -/
def classifyRows (rows : List RowModel) :
    Option (List ThCell) × List (List TdCell) :=
  rows.foldl (fun st r =>
    let hs := rowHeaderThs r
    if !hs.isEmpty then (some hs, st.2)
    else if !r.tds.isEmpty then (st.1, st.2 ++ [r.tds])
    else st) (none, [])

/-- The per-column basin classification of a header `th`: the `id` attribute
when it is a basin code, else the text heuristics (note the source checks
plain `pacific` before `central ... pacific`). -/
def thBasin (th : ThCell) : Option (Str × Str) :=
  let bid := lowerChars (th.idAttr.getD [])
  match basinNameOf bid with
  | some bn => some (bn, bid)
  | none =>
    let t := lowerChars th.text
    if containsSub ("atlantic".toList) t then
      some (("Atlantic".toList), ("al".toList))
    else if containsSub ("pacific".toList) t && !(containsSub ("east".toList) t) then
      some (("E_Pacific".toList), ("ep".toList))
    else if containsSub ("central".toList) t && containsSub ("pacific".toList) t then
      some (("C_Pacific".toList), ("cp".toList))
    else none

/-- `basin_by_column.get(col_idx, {'name': 'Atlantic', 'code': 'al'})`. -/
def colBasin (hdr : List ThCell) (idx : Nat) : Str × Str :=
  match hdr.get? idx with
  | some th => (thBasin th).getD ((("Atlantic".toList), ("al".toList)))
  | none => ((("Atlantic".toList), ("al".toList)))

/-- One data row of the column branch: cells by column index. -/
def colFold (year : Nat) (yearUrl : Str) (join : Str → Str → Str)
    (hdr : List ThCell) : List TdCell → Nat → List Cyclone → List Cyclone
  | [], _, acc => acc
  | td :: rest, idx, acc =>
    let b := colBasin hdr idx
    colFold year yearUrl join hdr rest (idx + 1)
      ((linkCandidates year td.links).foldl
        (fun a p => dedupAppend a (mkLegacyCyclone year yearUrl join b.1 b.2 p.1 p.2))
        acc)

/-- One table of the column branch: processed only when it has both a header
row and at least one data row. -/
def tableRecords (year : Nat) (yearUrl : Str) (join : Str → Str → Str)
    (acc : List Cyclone) (tbl : TableModel) : List Cyclone :=
  match classifyRows tbl.rows with
  | (some hdr, dataRows) =>
    if !dataRows.isEmpty then
      dataRows.foldl (fun a tds => colFold year yearUrl join hdr tds 0 a) acc
    else acc
  | (none, _) => acc

/-- The column-inference legacy branch over all tables. -/
def columnBranch (year : Nat) (yearUrl : Str) (join : Str → Str → Str)
    (tables : List TableModel) (acc : List Cyclone) : List Cyclone :=
  tables.foldl (tableRecords year yearUrl join) acc

/-- The parsed page handed over by BeautifulSoup: every string node with its
next sibling, the document-order `td[headers]` cells, and the tables. -/
structure PageModel where
  nodes : List StrNode
  tdHeaders : List TdCell
  tables : List TableModel
  deriving DecidableEq

/-- `get_year_cyclones`: new format first; only when it yields nothing, the
headers-attribute branch, else the column branch.  A failed fetch (`none`)
yields the empty list. -/
def getYearCyclones (year : Nat) (yearUrl : Str) (join : Str → Str → Str)
    (page : Option PageModel) : List Cyclone :=
  match page with
  | none => []
  | some p =>
    let newRecs := newFormatRecords yearUrl join p.nodes
    if !newRecs.isEmpty then newRecs
    else if !p.tdHeaders.isEmpty then tdBranch year yearUrl join p.tdHeaders []
    else columnBranch year yearUrl join p.tables []

/-! ### Membership and uniqueness lemmas for the legacy accumulators -/

lemma mem_dedupAppend (acc : List Cyclone) (c r : Cyclone)
    (h : r ∈ dedupAppend acc c) : r ∈ acc ∨ r = c := by
  rw [dedupAppend] at h
  split_ifs at h
  · exact Or.inl h
  · rcases List.mem_append.mp h with h' | h'
    · exact Or.inl h'
    · exact Or.inr (by simpa using h')

lemma mem_foldl_dedup {α : Type} (g : α → Cyclone) (l : List α)
    (acc : List Cyclone) (r : Cyclone)
    (h : r ∈ l.foldl (fun a x => dedupAppend a (g x)) acc) :
    r ∈ acc ∨ ∃ x ∈ l, r = g x := by
  induction l generalizing acc with
  | nil => exact Or.inl h
  | cons x rest ih =>
    rcases ih _ h with h' | ⟨y, hy, rfl⟩
    · rcases mem_dedupAppend _ _ _ h' with h'' | rfl
      · exact Or.inl h''
      · exact Or.inr ⟨x, by simp, rfl⟩
    · exact Or.inr ⟨y, by simp [hy], rfl⟩

lemma dedupAppend_nodup (acc : List Cyclone) (c : Cyclone)
    (h : (acc.map (fun x => x.id)).Nodup) :
    ((dedupAppend acc c).map (fun x => x.id)).Nodup := by
  rw [dedupAppend]
  split_ifs with hany
  · exact h
  · rw [List.map_append]
    refine List.Nodup.append h (List.nodup_singleton _) ?_
    intro a ha hb
    simp only [List.map_cons, List.map_nil, List.mem_singleton] at hb
    subst hb
    obtain ⟨x, hx, hxid⟩ := List.mem_map.mp ha
    exact hany (List.any_eq_true.mpr ⟨x, hx, by simp [hxid]⟩)

lemma foldl_dedup_nodup {α : Type} (g : α → Cyclone) (l : List α)
    (acc : List Cyclone) (h : (acc.map (fun x => x.id)).Nodup) :
    ((l.foldl (fun a x => dedupAppend a (g x)) acc).map (fun x => x.id)).Nodup := by
  induction l generalizing acc with
  | nil => exact h
  | cons x rest ih => exact ih _ (dedupAppend_nodup _ _ h)

lemma tdBranch_fold_nodup (year : Nat) (yearUrl : Str) (join : Str → Str → Str)
    (cells : List TdCell) (st : (Str × Str) × List Cyclone)
    (h : (st.2.map (fun x => x.id)).Nodup) :
    (((cells.foldl (tdBranchStep year yearUrl join) st).2).map
      (fun x => x.id)).Nodup := by
  induction cells generalizing st with
  | nil => exact h
  | cons td rest ih => exact ih _ (foldl_dedup_nodup _ _ _ h)

lemma colFold_nodup (year : Nat) (yearUrl : Str) (join : Str → Str → Str)
    (hdr : List ThCell) (tds : List TdCell) (idx : Nat) (acc : List Cyclone)
    (h : (acc.map (fun x => x.id)).Nodup) :
    ((colFold year yearUrl join hdr tds idx acc).map (fun x => x.id)).Nodup := by
  induction tds generalizing idx acc with
  | nil => exact h
  | cons td rest ih => exact ih _ _ (foldl_dedup_nodup _ _ _ h)

lemma rowsFold_nodup (year : Nat) (yearUrl : Str) (join : Str → Str → Str)
    (hdr : List ThCell) (dataRows : List (List TdCell)) (acc : List Cyclone)
    (h : (acc.map (fun x => x.id)).Nodup) :
    ((dataRows.foldl (fun a tds => colFold year yearUrl join hdr tds 0 a) acc).map
      (fun x => x.id)).Nodup := by
  induction dataRows generalizing acc with
  | nil => exact h
  | cons tds rest ih => exact ih _ (colFold_nodup _ _ _ _ _ _ _ h)

lemma tableRecords_nodup (year : Nat) (yearUrl : Str) (join : Str → Str → Str)
    (acc : List Cyclone) (tbl : TableModel)
    (h : (acc.map (fun x => x.id)).Nodup) :
    ((tableRecords year yearUrl join acc tbl).map (fun x => x.id)).Nodup := by
  rcases h1 : classifyRows tbl.rows with ⟨hdr, dataRows⟩
  cases hdr with
  | none => simpa [tableRecords, h1] using h
  | some hdr =>
    by_cases hne : dataRows.isEmpty
    · simpa [tableRecords, h1, hne] using h
    · simpa [tableRecords, h1, hne] using rowsFold_nodup year yearUrl join hdr dataRows acc h

lemma columnBranch_nodup (year : Nat) (yearUrl : Str) (join : Str → Str → Str)
    (tables : List TableModel) (acc : List Cyclone)
    (h : (acc.map (fun x => x.id)).Nodup) :
    ((columnBranch year yearUrl join tables acc).map (fun x => x.id)).Nodup := by
  induction tables generalizing acc with
  | nil => exact h
  | cons tbl rest ih => exact ih _ (tableRecords_nodup _ _ _ _ _ h)

/-- C5 (amended): on the legacy path — taken exactly when the new-format
branch yields no records — the output ids are unique (so within any year and
basin), and a candidate whose derived id is already present is discarded with
the accumulated records left unchanged (first-wins dedup).  The new-format
branch performs no deduplication, so the unrestricted uniqueness claim fails
(see the counterexample). -/
theorem getYearCyclones_legacy_dedup (year : Nat) (yearUrl : Str)
    (join : Str → Str → Str) (p : PageModel)
    (hnew : newFormatRecords yearUrl join p.nodes = []) :
    ((getYearCyclones year yearUrl join (some p)).map (fun c => c.id)).Nodup ∧
    (∀ acc c, c.id ∈ acc.map (fun x => x.id) → dedupAppend acc c = acc) := by
  constructor
  · rw [getYearCyclones]
    simp only [hnew, List.isEmpty_nil, Bool.not_true, Bool.false_eq_true, if_false]
    by_cases ht : p.tdHeaders.isEmpty
    · simp only [ht, Bool.not_true, Bool.false_eq_true, if_false]
      exact columnBranch_nodup _ _ _ _ [] (by simp)
    · simp only [ht, Bool.not_false, if_true]
      rw [tdBranch]
      exact tdBranch_fold_nodup _ _ _ _ _ (by simp)
  · intro acc c hmem
    obtain ⟨x, hx, hxid⟩ := List.mem_map.mp hmem
    rw [dedupAppend, if_pos (List.any_eq_true.mpr ⟨x, hx, by simp [hxid]⟩)]

def cat2Join (u t : Str) : Str := u ++ t

/-- A new-format page node carrying an `atcf_index=al01` marker followed by an
anchor. -/
def dupNode : StrNode :=
  { text := "atcf_index=al01".toList,
    next := NextSib.anchor ("al012024.shtml".toList) ("Hurricane ALEX".toList) }

def dupPage : PageModel := { nodes := [dupNode, dupNode], tdHeaders := [], tables := [] }

/-- C5 counterexample: a new-format page repeating the same `atcf_index`
marker yields two records with the same id in the same year and basin — the
new-format branch never deduplicates. -/
theorem getYearCyclones_new_duplicate_ids :
    ((getYearCyclones 2024 ("Y/".toList) cat2Join (some dupPage)).map
        (fun c => c.id)) = [("al01".toList), ("al01".toList)] ∧
    ¬ ((getYearCyclones 2024 ("Y/".toList) cat2Join (some dupPage)).map
        (fun c => c.id)).Nodup := by
  decide

def cell5a : TdCell :=
  { headersAttr := "al".toList,
    links := [{ href := "1998ALEXadv.html".toList, text := "ALEX".toList }] }

def cell5b : TdCell :=
  { headersAttr := "zz".toList,
    links := [{ href := "1998ALEXadv.html".toList, text := "ALEX".toList }] }

def page5 : PageModel := { nodes := [], tdHeaders := [cell5a, cell5b], tables := [] }

def cyc5 : Cyclone :=
  { id := "legacy_1998_alex".toList, name := "ALEX".toList,
    fullName := "ALEX".toList, url := "Y/1998ALEXadv.html".toList,
    fmt := "legacy".toList, basin := "Atlantic".toList, basinCode := "al".toList }

def cyc5b : Cyclone :=
  { cyc5 with fullName := "Hurricane ALEX".toList }

/-- Witness for `getYearCyclones_legacy_dedup`: a legacy page whose two cells
link the same storm produces unique ids, and a same-id candidate leaves the
accumulator unchanged. -/
theorem getYearCyclones_legacy_dedup_witness :
    ((getYearCyclones 1998 ("Y/".toList) cat2Join (some page5)).map
      (fun c => c.id)).Nodup ∧
    dedupAppend [cyc5] cyc5b = [cyc5] :=
  ⟨(getYearCyclones_legacy_dedup 1998 ("Y/".toList) cat2Join page5 (by decide)).1,
   (getYearCyclones_legacy_dedup 1998 ("Y/".toList) cat2Join page5 (by decide)).2
     [cyc5] cyc5b (by decide)⟩

/-! ### Default basin (`Atlantic`/`al`) in the legacy branches -/

def atlPair : Str × Str := (("Atlantic".toList), ("al".toList))

lemma tdBranch_fold_atlantic (year : Nat) (yearUrl : Str) (join : Str → Str → Str)
    (cells : List TdCell) (st : (Str × Str) × List Cyclone)
    (hA : ∀ td ∈ cells, basinNameOf td.headersAttr = none)
    (hst : st.1 = atlPair)
    (hrec : ∀ r ∈ st.2, r.basin = atlPair.1 ∧ r.basinCode = atlPair.2) :
    ∀ r ∈ (cells.foldl (tdBranchStep year yearUrl join) st).2,
      r.basin = atlPair.1 ∧ r.basinCode = atlPair.2 := by
  induction cells generalizing st with
  | nil => exact hrec
  | cons td rest ih =>
    have hnone : basinNameOf td.headersAttr = none := hA td (List.mem_cons_self _ _)
    rw [List.foldl_cons]
    apply ih
    · intro td' h'
      exact hA td' (List.mem_cons_of_mem _ h')
    · simp [tdBranchStep, hnone, hst]
    · intro r hr
      simp only [tdBranchStep, hnone] at hr
      rcases mem_foldl_dedup _ _ _ _ hr with h' | ⟨x, hx, rfl⟩
      · exact hrec r h'
      · constructor <;> simp [mkLegacyCyclone, hst]

lemma mem_dedupAppend_of_mem (acc : List Cyclone) (c r : Cyclone)
    (h : r ∈ acc) : r ∈ dedupAppend acc c := by
  rw [dedupAppend]
  split_ifs
  · exact h
  · exact List.mem_append_left _ h

lemma mem_foldl_dedup_of_mem {α : Type} (g : α → Cyclone) (l : List α)
    (acc : List Cyclone) (r : Cyclone) (h : r ∈ acc) :
    r ∈ l.foldl (fun a x => dedupAppend a (g x)) acc := by
  induction l generalizing acc with
  | nil => exact h
  | cons x rest ih => exact ih _ (mem_dedupAppend_of_mem _ _ _ h)

/-- Records already accumulated persist through the rest of the headers-cell
fold (the loop only appends). -/
lemma tdFold_mem_mono (year : Nat) (yearUrl : Str) (join : Str → Str → Str)
    (cells : List TdCell) (st : (Str × Str) × List Cyclone) (r : Cyclone)
    (h : r ∈ st.2) :
    r ∈ (cells.foldl (tdBranchStep year yearUrl join) st).2 := by
  induction cells generalizing st with
  | nil => exact h
  | cons td rest ih =>
    rw [List.foldl_cons]
    exact ih _ (mem_foldl_dedup_of_mem _ _ _ _ h)

/-- The header `th` at column `idx` is absent or carries no recognized basin
(the other columns are unconstrained). -/
def colNoBasin (hdr : List ThCell) (idx : Nat) : Bool :=
  match hdr.get? idx with
  | some th => (thBasin th).isNone
  | none => true

lemma colBasin_of_noBasin (hdr : List ThCell) (idx : Nat)
    (h : colNoBasin hdr idx = true) : colBasin hdr idx = atlPair := by
  unfold colNoBasin at h
  unfold colBasin
  cases hg : hdr.get? idx with
  | none => rfl
  | some th =>
    rw [hg] at h
    have h' : (thBasin th).isNone = true := h
    show (thBasin th).getD ((("Atlantic".toList), ("al".toList))) = atlPair
    rw [Option.isNone_iff_eq_none.mp h']
    rfl

/-- Provenance of the column-branch records of one data row: every record not
already accumulated was created from the cell at some column `j` and carries
exactly that column's basin classification — whatever the other columns
hold. -/
lemma colFold_provenance (year : Nat) (yearUrl : Str) (join : Str → Str → Str)
    (hdr : List ThCell) :
    ∀ (tds : List TdCell) (idx0 : Nat) (acc : List Cyclone) (r : Cyclone),
      r ∈ colFold year yearUrl join hdr tds idx0 acc →
      r ∈ acc ∨ ∃ j td x, tds.get? j = some td ∧
        x ∈ linkCandidates year td.links ∧
        r = mkLegacyCyclone year yearUrl join (colBasin hdr (idx0 + j)).1
              (colBasin hdr (idx0 + j)).2 x.1 x.2 := by
  intro tds
  induction tds with
  | nil => intro idx0 acc r h; exact Or.inl h
  | cons td rest ih =>
    intro idx0 acc r h
    simp only [colFold] at h
    rcases ih (idx0 + 1) _ r h with h' | ⟨j, td', x, hj, hx, rfl⟩
    · rcases mem_foldl_dedup _ _ _ _ h' with h'' | ⟨x, hx, rfl⟩
      · exact Or.inl h''
      · exact Or.inr ⟨0, td, x, by simp, hx, by simp⟩
    · refine Or.inr ⟨j + 1, td', x, by simpa using hj, hx, ?_⟩
      have harith : idx0 + (j + 1) = idx0 + 1 + j := by omega
      rw [harith]

/-- C9: a cyclone link met before any recognized basin header is tagged
`Atlantic`/`al` (never `Unknown`), and this does not require the rest of the
page to be header-free: (i) in the headers-attribute branch, whenever every
cell up to position `k` carries an unrecognized attribute, every record those
cells contribute is tagged `Atlantic`/`al` and survives — unchanged — into the
full-page output, regardless of recognized headers among the later cells;
(ii) in the column branch, a column whose own header is absent or unrecognized
classifies as `Atlantic`/`al`, and every record a data row produces carries
exactly its originating column's classification, so records from such a column
are tagged `Atlantic`/`al` even alongside recognized columns. -/
theorem legacy_default_basin_atlantic (year : Nat) (yearUrl : Str)
    (join : Str → Str → Str) (cells : List TdCell) (k : Nat)
    (hdr : List ThCell) (idx : Nat) (tds : List TdCell) (acc : List Cyclone)
    (hA : ∀ td ∈ cells.take k, basinNameOf td.headersAttr = none)
    (hB : colNoBasin hdr idx = true) :
    (∀ r ∈ ((cells.take k).foldl (tdBranchStep year yearUrl join)
        (atlPair, [])).2,
      r.basin = ("Atlantic".toList) ∧ r.basinCode = ("al".toList) ∧
      r ∈ tdBranch year yearUrl join cells []) ∧
    colBasin hdr idx = atlPair ∧
    (∀ r ∈ colFold year yearUrl join hdr tds 0 acc,
      r ∈ acc ∨ ∃ j td x, tds.get? j = some td ∧
        x ∈ linkCandidates year td.links ∧
        r = mkLegacyCyclone year yearUrl join (colBasin hdr j).1
              (colBasin hdr j).2 x.1 x.2 ∧
        (colNoBasin hdr j = true →
          r.basin = ("Atlantic".toList) ∧ r.basinCode = ("al".toList))) := by
  refine ⟨?_, colBasin_of_noBasin hdr idx hB, ?_⟩
  · intro r hr
    have hAtl := tdBranch_fold_atlantic year yearUrl join (cells.take k)
      (atlPair, []) hA rfl (by simp) r hr
    refine ⟨hAtl.1, hAtl.2, ?_⟩
    show r ∈ ((cells.foldl (tdBranchStep year yearUrl join) (atlPair, [])).2)
    rw [← List.take_append_drop k cells, List.foldl_append]
    exact tdFold_mem_mono year yearUrl join _ _ r hr
  · intro r hr
    rcases colFold_provenance year yearUrl join hdr tds 0 acc r hr
      with h' | ⟨j, td, x, hj, hx, hrq⟩
    · exact Or.inl h'
    · refine Or.inr ⟨j, td, x, hj, hx, by simpa using hrq, ?_⟩
      intro hnb
      have hc := colBasin_of_noBasin hdr j hnb
      rw [show (0 + j) = j by omega] at hrq
      subst hrq
      constructor <;> simp [mkLegacyCyclone, hc, atlPair]

def cell9u : TdCell :=
  { headersAttr := "foo".toList,
    links := [{ href := "ANA.html".toList, text := "ANA".toList }] }

def cell9r : TdCell :=
  { headersAttr := "ep".toList,
    links := [{ href := "BOB.html".toList, text := "BOB".toList }] }

/-- A mixed page: the first cell's attribute is unrecognized, the second is a
recognized `ep` header cell. -/
def cells9 : List TdCell := [cell9u, cell9r]

/-- A mixed header row: column 0 is a recognized `ep` header, column 1 is
unrecognized. -/
def hdr9 : List ThCell :=
  [{ idAttr := some ("ep".toList), text := "East Pacific".toList },
   { idAttr := some ("xy".toList), text := "Storms".toList }]

def rec9 : Cyclone :=
  { id := "legacy_1999_ana".toList, name := "ANA".toList, fullName := "ANA".toList,
    url := "Y/ANA.html".toList, fmt := "legacy".toList,
    basin := "Atlantic".toList, basinCode := "al".toList }

/-- Witness for `legacy_default_basin_atlantic` on the mixed page: the record
from the unrecognized leading cell is `Atlantic`/`al` and appears in the
full-page output even though a recognized `ep` cell follows; the unrecognized
column 1 classifies as `Atlantic`/`al` alongside the recognized column 0. -/
theorem legacy_default_basin_atlantic_witness :
    (rec9.basin = ("Atlantic".toList) ∧ rec9.basinCode = ("al".toList) ∧
      rec9 ∈ tdBranch 1999 ("Y/".toList) cat2Join cells9 []) ∧
    colBasin hdr9 1 = atlPair :=
  ⟨(legacy_default_basin_atlantic 1999 ("Y/".toList) cat2Join cells9 1 hdr9 1 [] []
      (by decide) (by decide)).1 rec9 (by decide),
   (legacy_default_basin_atlantic 1999 ("Y/".toList) cat2Join cells9 1 hdr9 1 [] []
      (by decide) (by decide)).2.1⟩

/-! ### New-format markers without a following anchor -/

/-- A string node that produces a record: the find-all filter, a parsable
`atcf_index` id, and an anchor as the immediate next sibling. -/
def validMarker (n : StrNode) : Bool :=
  containsSub ("atcf_index=".toList) n.text && (extractAtcf n.text).isSome &&
    (match n.next with | NextSib.anchor _ _ => true | _ => false)

lemma mkNewRecord_isSome (yearUrl : Str) (join : Str → Str → Str) (n : StrNode) :
    (mkNewRecord yearUrl join n).isSome = validMarker n := by
  rw [mkNewRecord, validMarker]
  cases h1 : containsSub ("atcf_index=".toList) n.text with
  | false =>
    rw [if_neg (by simp [h1])]
    simp
  | true =>
    rw [if_pos rfl]
    cases h2 : extractAtcf n.text with
    | none => simp
    | some cid =>
      cases h3 : n.next <;> simp

lemma length_filterMap_eq_countP {α β : Type} (f : α → Option β) (l : List α) :
    (l.filterMap f).length = l.countP (fun x => (f x).isSome) := by
  induction l with
  | nil => rfl
  | cons a l ih =>
    cases h : f a <;> simp [List.filterMap_cons, h, List.countP_cons, ih]

/-- C10: the new-format branch yields exactly one record per `atcf_index`
comment that is directly followed by an anchor; a marker whose next sibling is
not an anchor is silently skipped — removing it from the page leaves the
output unchanged. -/
theorem newFormat_skips_markers_without_anchor (yearUrl : Str)
    (join : Str → Str → Str) (nodes l1 l2 : List StrNode) (n : StrNode)
    (hbad : validMarker n = false) :
    (newFormatRecords yearUrl join nodes).length = nodes.countP validMarker ∧
    newFormatRecords yearUrl join (l1 ++ n :: l2)
      = newFormatRecords yearUrl join (l1 ++ l2) := by
  have hn : mkNewRecord yearUrl join n = none := by
    cases hx : mkNewRecord yearUrl join n with
    | none => rfl
    | some v =>
      have h := mkNewRecord_isSome yearUrl join n
      rw [hx, hbad] at h
      simp at h
  constructor
  · rw [newFormatRecords, length_filterMap_eq_countP]
    exact List.countP_congr (fun x _ => by rw [mkNewRecord_isSome yearUrl join x])
  · simp [newFormatRecords, List.filterMap_append, List.filterMap_cons, hn]

def n10good : StrNode :=
  { text := "atcf_index=ep05".toList,
    next := NextSib.anchor ("ep052023.shtml".toList) ("Tropical Storm ADRIAN".toList) }

def n10bad : StrNode :=
  { text := "atcf_index=ep06".toList, next := NextSib.other }

/-- Witness for `newFormat_skips_markers_without_anchor`: one valid marker and
one anchor-less marker give one record, and dropping the anchor-less marker
changes nothing. -/
theorem newFormat_skips_markers_without_anchor_witness :
    (newFormatRecords ("Y/".toList) cat2Join [n10good, n10bad]).length
      = [n10good, n10bad].countP validMarker ∧
    newFormatRecords ("Y/".toList) cat2Join ([n10good] ++ n10bad :: [])
      = newFormatRecords ("Y/".toList) cat2Join ([n10good] ++ []) :=
  newFormat_skips_markers_without_anchor ("Y/".toList) cat2Join [n10good, n10bad]
    [n10good] [] n10bad (by decide)

end CrawlAnalysis
